import Mathlib

/-!
Shallow embedding of the WereWolf-LLM game engine
(`src/models/player.py`, `src/game/game_state.py`, `src/game/game_manager.py`,
`src/phases/night_phase.py`, `src/phases/day_phase.py`) together with proofs
about its resolution rules: victory evaluation, night-death resolution,
day voting, hunter retaliation, last words, setup validation and the basic
state invariants.

External LLM decisions (`make_night_action`, `vote_for_player`, `speak`) are
modelled as explicit parameters; the ambient randomness used by
`random.choice` is modelled by an arbitrary index into the list it picks
from.
-/

namespace WereWolf

/-- `Role` enum from `src/models/player.py`. -/
inductive Role where
  | werewolf
  | seer
  | witch
  | hunter
  | villager
deriving DecidableEq, Repr

/-- `Team` enum from `src/models/player.py`. -/
inductive Team where
  | werewolf
  | villager
deriving DecidableEq, Repr

/-- `PlayerStatus` enum from `src/models/player.py`. -/
inductive PlayerStatus where
  | alive
  | dead
deriving DecidableEq, Repr

/-- `Player` model from `src/models/player.py` (the LLM API fields
`api_url`, `api_key`, `model` carry no game meaning and are omitted;
`witch_potions` is the two-key dict `{"heal": _, "poison": _}`). -/
structure Player where
  id : Nat
  name : String
  role : Role
  team : Team
  status : PlayerStatus
  seer_checks : List (Nat × String)
  witch_heal_potion : Bool
  witch_poison_potion : Bool
  hunter_can_shoot : Bool
deriving DecidableEq, Repr

/-- The team `Player.__init__` derives when `team` is not supplied:
`Team.WEREWOLF` iff `role == Role.WEREWOLF`, else `Team.VILLAGER`. -/
def derivedTeam (r : Role) : Team :=
  if r = Role.werewolf then Team.werewolf else Team.villager

/-- `Player.__init__`: status starts `ALIVE`, both witch potions `True`,
`hunter_can_shoot` `True`, no seer checks; `team` is taken from the
constructor argument when supplied and otherwise derived from the role. -/
def mkPlayer (id : Nat) (name : String) (role : Role) (team? : Option Team) : Player :=
  { id := id
    name := name
    role := role
    team := team?.getD (derivedTeam role)
    status := PlayerStatus.alive
    seer_checks := []
    witch_heal_potion := true
    witch_poison_potion := true
    hunter_can_shoot := true }

/-- `Player.is_alive`. -/
def Player.is_alive (p : Player) : Bool :=
  p.status = PlayerStatus.alive

/-- `Player.kill`: sets status to `DEAD`. -/
def Player.kill (p : Player) : Player :=
  { p with status := PlayerStatus.dead }

/-- The slice of `GameState` (`src/game/game_state.py`) the resolution rules
read and write.  The speech-bookkeeping fields (`day_speeches`,
`last_words_context`, trackers, loggers) never influence deaths, votes or
victory and are omitted. -/
structure GameState where
  players : List Player
  current_round : Nat
  max_rounds : Nat
  wolf_kill_target : Option Nat
  witch_heal_used : Bool
  witch_poison_used : Bool
  deaths_this_night : List Nat
  deaths_this_day : List Nat
deriving DecidableEq, Repr

/-- `GameState.__init__` field defaults (no players, round 0, `max_rounds = 10`). -/
def GameState.init : GameState :=
  { players := []
    current_round := 0
    max_rounds := 10
    wolf_kill_target := none
    witch_heal_used := false
    witch_poison_used := false
    deaths_this_night := []
    deaths_this_day := [] }

/-- `GameState.get_alive_players`. -/
def GameState.get_alive_players (s : GameState) : List Player :=
  s.players.filter (fun p => p.is_alive)

/-- `GameState.get_player_by_id`: first player with the given id, if any. -/
def GameState.get_player_by_id (s : GameState) (pid : Nat) : Option Player :=
  s.players.find? (fun p => p.id = pid)

/-- `GameState.get_players_by_role`. -/
def GameState.get_players_by_role (s : GameState) (r : Role) : List Player :=
  s.players.filter (fun p => p.role = r)

/-- `GameState.get_alive_players_by_role`. -/
def GameState.get_alive_players_by_role (s : GameState) (r : Role) : List Player :=
  s.players.filter (fun p => p.role = r ∧ p.is_alive)

/-- `GameState.get_alive_wolf_players`. -/
def GameState.get_alive_wolf_players (s : GameState) : List Player :=
  s.get_alive_players_by_role Role.werewolf

/-- `GameState.get_alive_villager_players`: alive players on `Team.VILLAGER`. -/
def GameState.get_alive_villager_players (s : GameState) : List Player :=
  s.players.filter (fun p => p.team = Team.villager ∧ p.is_alive)

/-- Helper for `GameState.kill_player`: set the status of the first player
carrying the given id to `DEAD` (the mutation `player.kill()` performs on
the object returned by `get_player_by_id`). -/
def killFirst : List Player → Nat → List Player
  | [], _ => []
  | p :: ps, pid =>
    if p.id = pid then p.kill :: ps else p :: killFirst ps pid

/-- `GameState.kill_player`: succeeds (and kills) iff a player with the id
exists and is currently alive; otherwise leaves the state unchanged. -/
def GameState.kill_player (s : GameState) (pid : Nat) : Bool × GameState :=
  match s.get_player_by_id pid with
  | none => (false, s)
  | some p =>
    if p.is_alive then (true, { s with players := killFirst s.players pid })
    else (false, s)

/-- Result dictionary of `GameState.check_victory_conditions`. -/
structure VictoryResult where
  game_over : Bool
  winner : Option String
  reason : Option String
deriving DecidableEq, Repr

/-- `GameState.check_victory_conditions` from `src/game/game_state.py`,
branch for branch, with the reason strings of the source. -/
def GameState.check_victory_conditions (s : GameState) : VictoryResult :=
  let alive_wolves := s.get_alive_wolf_players.length
  let alive_villagers := s.get_alive_villager_players.length
  if alive_wolves = 0 then
    { game_over := true, winner := some "villagers", reason := some "所有狼人被淘汰" }
  else if alive_wolves ≥ alive_villagers then
    { game_over := true, winner := some "werewolves", reason := some "狼人人数大于等于好人" }
  else
    let witches := s.get_players_by_role Role.witch
    let stalemate :=
      match witches.head? with
      | some w =>
        !w.is_alive && (!w.witch_heal_potion && !w.witch_poison_potion)
          && alive_wolves = 1 && alive_villagers = 1
      | none => false
    if stalemate then
      { game_over := true, winner := some "werewolves", reason := some "女巫药物已用完，1v1狼人胜利" }
    else if s.current_round ≥ s.max_rounds then
      { game_over := true, winner := some "draw", reason := some "达到最大回合数" }
    else
      { game_over := false, winner := none, reason := none }

/-- Insert into a `≤`-sorted list of ids, keeping it sorted. -/
def insertSorted (x : Nat) : List Nat → List Nat
  | [] => [x]
  | y :: ys => if x ≤ y then x :: y :: ys else y :: insertSorted x ys

/-- Python's `list.sort()` on a list of ids: ascending order. -/
def sortNat (l : List Nat) : List Nat :=
  l.foldr insertSorted []

/-- `deaths = list(set(deaths)); deaths.sort()` from
`NightPhase._process_night_actions`: duplicates removed, ascending order. -/
def sortedDedup (l : List Nat) : List Nat :=
  sortNat l.dedup

/-- Night event records built by `NightPhase` (`self.night_events`); only
the fields the death resolution reads are kept. -/
inductive NightEvent where
  | seer_check (player target : Nat) (result : String)
  | wolf_kill (target : Nat) (voters : List Nat)
  | witch_heal (player target : Nat)
  | witch_poison (player target : Nat)
  | witch_no_action (player : Nat)
  | hunter_death (player : Nat)
deriving DecidableEq, Repr

/-- Targets of `witch_poison` events, in order (the loop in
`_process_night_actions` walks `self.night_events`). -/
def poisonTargets (events : List NightEvent) : List Nat :=
  events.filterMap fun e =>
    match e with
    | NightEvent.witch_poison _ t => some t
    | _ => none

/-- `target_player and target_player.is_alive()`: the id belongs to a
currently-living player of the state. -/
def GameState.aliveById (s : GameState) (pid : Nat) : Bool :=
  match s.get_player_by_id pid with
  | some p => p.is_alive
  | none => false

/-- The wolf-kill part of `_process_night_actions`: the target dies only if
one was set (the Python guard `if self.game_state.wolf_kill_target:` is
falsy both for `None` and for id `0`), the witch did not heal, and the
target is a currently-living player. -/
def wolfBase (s : GameState) : List Nat :=
  match s.wolf_kill_target with
  | some t =>
    if t ≠ 0 ∧ s.witch_heal_used = false ∧ s.aliveById t then [t] else []
  | none => []

/-- `NightPhase._process_night_actions`: the surviving wolf-kill target
followed by every living `witch_poison` event target, duplicates removed
and the list sorted (`list(set(deaths)); deaths.sort()`). -/
def process_night_actions (s : GameState) (events : List NightEvent) : List Nat :=
  sortedDedup (wolfBase s ++ (poisonTargets events).filter (fun t => s.aliveById t))

/-- Apply a field update to the first player carrying the given id (the
in-place mutation performed on the object `get_player_by_id` /
`get_alive_players_by_role` returns). -/
def updatePlayer : List Player → Nat → (Player → Player) → List Player
  | [], _, _ => []
  | p :: ps, pid, f =>
    if p.id = pid then f p :: ps else p :: updatePlayer ps pid f

/-- The witch's `make_night_action` reply as `NightPhase._witch_phase` reads
it: an `action` string with an optional `target`; every other shape falls
through to the final `return None`, modelled by `invalid`. -/
inductive WitchAction where
  | heal (target : Option Nat)
  | poison (target : Option Nat)
  | no_action
  | invalid
deriving DecidableEq, Repr

/-- `NightPhase._witch_phase`: requires a living witch; a heal is applied
only when its target equals the proposed wolf-kill target and the heal
potion is unused (consuming the potion and setting `witch_heal_used`);
a poison is applied only when the target is a living player and the poison
potion is unused (consuming it and setting `witch_poison_used`); `none`
yields a `witch_no_action` event; anything else changes nothing. -/
def witch_phase (s : GameState) (a : WitchAction) : GameState × Option NightEvent :=
  match (s.get_alive_players_by_role Role.witch).head? with
  | none => (s, none)
  | some w =>
    match a with
    | WitchAction.heal t? =>
      match t?, s.wolf_kill_target with
      | some t, some wt =>
        if t = wt ∧ w.witch_heal_potion then
          qheal s w t
        else (s, none)
      | _, _ => (s, none)
    | WitchAction.poison t? =>
      match t? with
      | some t =>
        match s.get_player_by_id t with
        | some tp =>
          if tp.is_alive ∧ w.witch_poison_potion then
            qpoison s w t
          else (s, none)
        | none => (s, none)
      | none => (s, none)
    | WitchAction.no_action => (s, some (NightEvent.witch_no_action w.id))
    | WitchAction.invalid => (s, none)
where
  /-- `witch.witch_potions["heal"] = False; witch_heal_used = True`. -/
  qheal (s : GameState) (w : Player) (t : Nat) : GameState × Option NightEvent :=
    ({ s with
        players := updatePlayer s.players w.id
          (fun p => { p with witch_heal_potion := false })
        witch_heal_used := true },
     some (NightEvent.witch_heal w.id t))
  /-- `witch.witch_potions["poison"] = False; witch_poison_used = True`. -/
  qpoison (s : GameState) (w : Player) (t : Nat) : GameState × Option NightEvent :=
    ({ s with
        players := updatePlayer s.players w.id
          (fun p => { p with witch_poison_potion := false })
        witch_poison_used := true },
     some (NightEvent.witch_poison w.id t))

/-- A `make_night_action` reply from a werewolf: the `action` string and the
optional integer `target`; `none` for a missing/failed reply. -/
structure ActionReply where
  action : String
  target : Option Nat
deriving DecidableEq, Repr

/-- `wolf_ids = [w.id for w in wolves]`. -/
def GameState.wolfIds (s : GameState) : List Nat :=
  s.get_alive_wolf_players.map (fun p => p.id)

/-- `available_targets = [p for p in alive if p.id not in wolf_ids]`, as ids. -/
def GameState.availableTargetIds (s : GameState) : List Nat :=
  (s.get_alive_players.filter (fun p => !(s.wolfIds.contains p.id))).map (fun p => p.id)

/-- The valid kill proposals collected by `_werewolf_phase`: one entry
`(wolf_id, target)` per living wolf whose reply is a `kill` of a target
inside `available_targets`; malformed, missing or out-of-range replies are
dropped. -/
def wolf_votes (s : GameState) (replies : Nat → Option ActionReply) : List (Nat × Nat) :=
  s.get_alive_wolf_players.filterMap fun w =>
    match replies w.id with
    | some r =>
      if r.action = "kill" then
        match r.target with
        | some t => if t ∈ s.availableTargetIds then some (w.id, t) else none
        | none => none
      else none
    | none => none

/-- First-occurrence deduplication: the key order of a Python dict built by
inserting each vote target in turn. -/
def keysInOrder : List Nat → List Nat
  | [] => []
  | x :: xs => x :: (keysInOrder xs).filter (fun y => y ≠ x)

/-- `vote_count[target]`: number of votes naming `t` (the tally loop in
`_werewolf_phase`, `_voting_phase` and `GameState.get_vote_count`). -/
def voteCountFor (votes : List (Nat × Nat)) (t : Nat) : Nat :=
  (votes.map Prod.snd).count t

/-- The distinct vote targets, in dict insertion order. -/
def voteTargets (votes : List (Nat × Nat)) : List Nat :=
  keysInOrder (votes.map Prod.snd)

/-- `max_votes = max(vote_count.values())` (`0` when no votes, matching the
guarded `if vote_count else 0`). -/
def maxVotes (votes : List (Nat × Nat)) : Nat :=
  ((voteTargets votes).map (voteCountFor votes)).foldr max 0

/-- `most_voted = [t for t, v in vote_count.items() if v == max_votes]`. -/
def mostVoted (votes : List (Nat × Nat)) : List Nat :=
  (voteTargets votes).filter (fun t => voteCountFor votes t = maxVotes votes)

/-- `NightPhase._werewolf_phase`, with the LLM replies and the two
`random.choice` calls made explicit: `k` indexes the list the random choice
draws from (every index below the length is a possible draw).
When at least one valid proposal exists the target is a random element of
the top-voted set; otherwise the fallback picks a random living non-wolf
(`random.choice(non_wolf_players)`); with no living non-wolf the phase
returns nothing. -/
def werewolf_phase (s : GameState) (replies : Nat → Option ActionReply) (k : Nat) :
    Option NightEvent :=
  let wolves := s.get_alive_wolf_players
  if wolves = [] then none
  else
    let votes := wolf_votes s replies
    if votes ≠ [] then
      let mv := mostVoted votes
      some (NightEvent.wolf_kill (mv.getD (k % mv.length) 0) (votes.map Prod.fst))
    else
      let nonWolf :=
        (s.get_alive_players.filter (fun p => p.role ≠ Role.werewolf)).map (fun p => p.id)
      if nonWolf = [] then none
      else some (NightEvent.wolf_kill (nonWolf.getD (k % nonWolf.length) 0)
        (wolves.map (fun p => p.id)))

/-- The elimination rule shared by `DayPhase._voting_phase` and
`GameState.get_most_voted_player`: the sole top-voted target, `none` on a
tie (`most_voted[0] if len(most_voted) == 1 else None`). -/
def eliminatedOf (votes : List (Nat × Nat)) : Option Nat :=
  match mostVoted votes with
  | [t] => some t
  | _ => none

/-- The result dictionary of `DayPhase._voting_phase` (the keys the rest of
the day phase reads). -/
structure VotingResult where
  votes : List (Nat × Nat)
  eliminated : Option Nat
  max_votes : Nat
  tie : Bool
deriving DecidableEq, Repr

/-- `DayPhase._voting_phase`, with each living player's `vote_for_player`
return value supplied by `voteOf`.  With at most one living player the
phase returns the empty result; otherwise every living player contributes
one vote, coerced to the first candidate when out of range, and the
eliminated player is the sole top-voted candidate or `none` on a tie. -/
def voting_phase (s : GameState) (voteOf : Nat → Nat) : VotingResult :=
  let alive := s.get_alive_players
  if alive.length ≤ 1 then
    { votes := [], eliminated := none, max_votes := 0, tie := false }
  else
    let candidate_ids := alive.map (fun p => p.id)
    let votes := alive.map (fun v =>
      let t := voteOf v.id
      if t ∈ candidate_ids then (v.id, t) else (v.id, candidate_ids.headD 0))
    { votes := votes
      eliminated := eliminatedOf votes
      max_votes := maxVotes votes
      tie := decide (1 < (mostVoted votes).length) }

/-- The result dictionary of `DayPhase._handle_hunter_shot`. -/
structure HunterShot where
  hunter : Nat
  target : Option Nat
  successful : Bool
deriving DecidableEq, Repr

/-- `DayPhase._handle_hunter_shot`: fires only when the vote eliminated a
player (Python truthiness: `None` and id `0` both skip) whose role is
Hunter and whose `hunter_can_shoot` is `True`; the hunter's
`vote_for_player` choice (`choose`) succeeds iff it names a currently
living player. -/
def handle_hunter_shot (s : GameState) (eliminated : Option Nat) (choose : Nat) :
    Option HunterShot :=
  match eliminated with
  | none => none
  | some e =>
    if e = 0 then none
    else
      match s.get_player_by_id e with
      | none => none
      | some ep =>
        if ep.role ≠ Role.hunter then none
        else if ep.hunter_can_shoot = false then none
        else
          let target_ids := s.get_alive_players.map (fun p => p.id)
          if target_ids ≠ [] then
            if choose ∈ target_ids then
              some { hunter := e, target := some choose, successful := true }
            else
              some { hunter := e, target := none, successful := false }
          else
            some { hunter := e, target := none, successful := false }

/-- `DayPhase._process_day_deaths`: the eliminated player (if truthy)
followed by a successful hunter-shot target that is truthy and not already
listed. -/
def process_day_deaths (eliminated : Option Nat) (hs : Option HunterShot) : List Nat :=
  let deaths : List Nat :=
    match eliminated with
    | some e => if e ≠ 0 then [e] else []
    | none => []
  match hs with
  | some h =>
    if h.successful then
      match h.target with
      | some t => if t ≠ 0 ∧ t ∉ deaths then deaths ++ [t] else deaths
      | none => deaths
    else deaths
  | none => deaths

/-- The death-application loop at the end of `execute_day_phase`
(`kill_player` + `deaths_this_day.append` per death). -/
def apply_day_deaths (s : GameState) (deaths : List Nat) : GameState :=
  deaths.foldl (fun st d =>
    let st' := (st.kill_player d).2
    { st' with deaths_this_day := st'.deaths_this_day ++ [d] }) s

/-- A last-words record appended by `DayPhase._handle_last_words`. -/
structure LastWord where
  player : Nat
  name : String
  speech : String
deriving DecidableEq, Repr

/-- `DayPhase._handle_last_words`, with each dying player's `speak` output
supplied by `speakOf`: last words are collected iff the night had deaths
and (`current_round == 1` or exactly one death); otherwise none of the
dying players speak. -/
def handle_last_words (s : GameState) (speakOf : Nat → String) (deaths : List Nat) :
    List LastWord :=
  if deaths = [] then []
  else
    let has_last_words := s.current_round = 1 ∨ deaths.length = 1
    if has_last_words then
      deaths.filterMap (fun pid =>
        (s.get_player_by_id pid).map (fun p =>
          { player := pid, name := p.name, speech := speakOf pid }))
    else []

/-- One entry of the `players_config` list consumed by
`GameManager.setup_game` (role still a raw string at this point). -/
structure PlayerConfig where
  name : String
  role : String
  api_url : String
  api_key : String
  model : String
deriving DecidableEq, Repr

/-- `Role(config["role"])`: the enum constructor, `none` for an unknown
role string (where Python would raise `ValueError`). -/
def roleOfString (r : String) : Option Role :=
  if r = "werewolf" then some Role.werewolf
  else if r = "seer" then some Role.seer
  else if r = "witch" then some Role.witch
  else if r = "hunter" then some Role.hunter
  else if r = "villager" then some Role.villager
  else none

/-- `role_counts == expected_counts` from `setup_game`: exactly
3 werewolves, 1 seer, 1 witch, 1 hunter, 4 villagers. -/
def role_counts_ok (cfgs : List PlayerConfig) : Bool :=
  let roles := cfgs.map (fun c => c.role)
  roles.count "werewolf" = 3 && roles.count "seer" = 1 && roles.count "witch" = 1
    && roles.count "hunter" = 1 && roles.count "villager" = 4

/-- The player-creation loop of `setup_game`
(`for i, config in enumerate(players_config, 1)`), ids `1..n`.  Entries
whose role string is not a valid `Role` are skipped here; once the role
counts were validated no such entry can exist (proved below), matching the
fact that `Role(config["role"])` cannot raise on the success path. -/
def mkPlayers (cfgs : List PlayerConfig) : List Player :=
  cfgs.enum.filterMap (fun ic =>
    (roleOfString ic.2.role).map (fun r => mkPlayer (ic.1 + 1) ic.2.name r none))

/-- `GameManager.setup_game`: player count and role counts are validated
strictly before any `add_player` call; on success the ten players are
appended to the state. -/
def setup_game (s : GameState) (cfgs : List PlayerConfig) : Bool × GameState :=
  if cfgs.length ≠ 10 then (false, s)
  else if role_counts_ok cfgs = false then (false, s)
  else (true, { s with players := s.players ++ mkPlayers cfgs })

/-- The result of check 1: village victory. -/
def villageWinResult : VictoryResult :=
  { game_over := true, winner := some "villagers", reason := some "所有狼人被淘汰" }

/-- The result of check 2: werewolf victory by parity/majority. -/
def parityWinResult : VictoryResult :=
  { game_over := true, winner := some "werewolves", reason := some "狼人人数大于等于好人" }

/-- The result of the dead-witch 1v1 stalemate branch. -/
def stalemateWinResult : VictoryResult :=
  { game_over := true, winner := some "werewolves", reason := some "女巫药物已用完，1v1狼人胜利" }

/-- A state with one living wolf: 0 wolves is false, parity holds. -/
def parityState : GameState :=
  { GameState.init with
      players := [mkPlayer 1 "A" Role.werewolf none, mkPlayer 2 "B" Role.villager none]
      current_round := 2 }

/-- A state with no living wolf. -/
def noWolfState : GameState :=
  { GameState.init with
      players := [mkPlayer 1 "A" Role.villager none]
      current_round := 2 }

/-- The state of claim C5: the witch is dead with both potions consumed,
one living werewolf and one living village-team player. -/
def witch1v1State : GameState :=
  { GameState.init with
      players :=
        [ mkPlayer 1 "W" Role.werewolf none
        , mkPlayer 2 "V" Role.villager none
        , { mkPlayer 3 "witch" Role.witch none with
              status := PlayerStatus.dead
              witch_heal_potion := false
              witch_poison_potion := false } ]
      current_round := 3 }

/-- Night scenario for the C2 witness: wolves targeted player 1, the witch
healed player 1 and (in another run of the same resolution code) player 2
was poisoned while alive. -/
def healedNightState : GameState :=
  { GameState.init with
      players :=
        [ mkPlayer 1 "V1" Role.villager none
        , mkPlayer 2 "V2" Role.villager none
        , mkPlayer 3 "W" Role.werewolf none
        , mkPlayer 4 "witch" Role.witch none ]
      current_round := 2
      wolf_kill_target := some 1
      witch_heal_used := true }

/-- Poison event list for the C2 witness. -/
def healedNightEvents : List NightEvent :=
  [NightEvent.witch_poison 4 2]

/-- Seven living players for the first C3 voting example. -/
def voteState7 : GameState :=
  { GameState.init with
      players :=
        [ mkPlayer 1 "P1" Role.werewolf none
        , mkPlayer 2 "P2" Role.villager none
        , mkPlayer 3 "P3" Role.seer none
        , mkPlayer 4 "P4" Role.witch none
        , mkPlayer 5 "P5" Role.hunter none
        , mkPlayer 6 "P6" Role.villager none
        , mkPlayer 7 "P7" Role.werewolf none ]
      current_round := 2 }

/-- Votes realising counts `{2: 3, 5: 3, 7: 1}` on `voteState7`. -/
def voteOf7 : Nat → Nat :=
  fun v => if v ≤ 3 then 2 else if v ≤ 6 then 5 else 7

/-- Six living players for the second C3 voting example. -/
def voteState6 : GameState :=
  { GameState.init with
      players :=
        [ mkPlayer 1 "Q1" Role.werewolf none
        , mkPlayer 2 "Q2" Role.villager none
        , mkPlayer 3 "Q3" Role.seer none
        , mkPlayer 4 "Q4" Role.witch none
        , mkPlayer 5 "Q5" Role.hunter none
        , mkPlayer 6 "Q6" Role.villager none ]
      current_round := 2 }

/-- Votes realising counts `{2: 4, 5: 2}` on `voteState6`. -/
def voteOf6 : Nat → Nat :=
  fun v => if v ≤ 4 then 2 else 5

/-- Four living players with a hunter, for the C4 day-phase scenario. -/
def hunterState : GameState :=
  { GameState.init with
      players :=
        [ mkPlayer 1 "H" Role.hunter none
        , mkPlayer 2 "V" Role.villager none
        , mkPlayer 3 "W" Role.werewolf none
        , mkPlayer 4 "V2" Role.villager none ]
      current_round := 2 }

/-- One living werewolf (id 3) and two living villagers (ids 1, 2), for the
C6 fallback scenario. -/
def wolfFallbackState : GameState :=
  { GameState.init with
      players :=
        [ mkPlayer 1 "V1" Role.villager none
        , mkPlayer 2 "V2" Role.villager none
        , mkPlayer 3 "W" Role.werewolf none ]
      current_round := 1 }

/-- Every werewolf reply missing/failed: no valid kill proposal. -/
def noReplies : Nat → Option ActionReply := fun _ => none

/-- A fixed `speak` stub for witnesses (content is never inspected). -/
def sampleSpeak : Nat → String := fun _ => "farewell"

/-- A config entry with the given role (API fields are dummies). -/
def cfgWith (n : String) (r : String) : PlayerConfig :=
  { name := n, role := r, api_url := "http://localhost", api_key := "k"
    model := "gpt-3.5-turbo" }

/-- A valid ten-entry roster: 3 werewolf, 1 seer, 1 witch, 1 hunter,
4 villager. -/
def goodConfigs : List PlayerConfig :=
  [ cfgWith "a" "werewolf", cfgWith "b" "werewolf", cfgWith "c" "werewolf"
  , cfgWith "d" "seer", cfgWith "e" "witch", cfgWith "f" "hunter"
  , cfgWith "g" "villager", cfgWith "h" "villager", cfgWith "i" "villager"
  , cfgWith "j" "villager" ]

/-- An invalid roster: ten entries but all villagers. -/
def badConfigs : List PlayerConfig :=
  List.replicate 10 (cfgWith "x" "villager")

/-! ## Theorems -/

theorem insertSorted_perm (x : Nat) (l : List Nat) :
    List.Perm (insertSorted x l) (x :: l) := by
  induction l with
  | nil => simp [insertSorted]
  | cons y ys ih =>
    by_cases h : x ≤ y
    · simp [insertSorted, h]
    · simp only [insertSorted, if_neg h]
      exact (ih.cons y).trans (List.Perm.swap x y ys)

theorem sortNat_perm (l : List Nat) : List.Perm (sortNat l) l := by
  induction l with
  | nil => simp [sortNat]
  | cons x xs ih =>
    exact (insertSorted_perm x (sortNat xs)).trans (ih.cons x)

theorem mem_sortNat {a : Nat} {l : List Nat} : a ∈ sortNat l ↔ a ∈ l :=
  (sortNat_perm l).mem_iff

theorem sorted_insertSorted {x : Nat} {l : List Nat}
    (h : List.Sorted (· ≤ ·) l) : List.Sorted (· ≤ ·) (insertSorted x l) := by
  induction l with
  | nil => simp [insertSorted]
  | cons y ys ih =>
    by_cases hxy : x ≤ y
    · simp only [insertSorted, if_pos hxy]
      refine List.Pairwise.cons ?_ h
      intro b hb
      rcases List.mem_cons.mp hb with rfl | hb
      · exact hxy
      · exact le_trans hxy (List.rel_of_sorted_cons h b hb)
    · simp only [insertSorted, if_neg hxy]
      refine List.Pairwise.cons ?_ (ih (List.Sorted.of_cons h))
      intro b hb
      rcases List.mem_cons.mp ((insertSorted_perm x ys).mem_iff.mp hb) with rfl | hb'
      · exact le_of_not_le hxy
      · exact List.rel_of_sorted_cons h b hb'

theorem sorted_sortNat (l : List Nat) : List.Sorted (· ≤ ·) (sortNat l) := by
  induction l with
  | nil => simp [sortNat, List.Sorted]
  | cons x xs ih => exact sorted_insertSorted ih

theorem nodup_sortNat {l : List Nat} (h : l.Nodup) : (sortNat l).Nodup :=
  (sortNat_perm l).nodup_iff.mpr h

theorem mem_sortedDedup {a : Nat} {l : List Nat} : a ∈ sortedDedup l ↔ a ∈ l := by
  simp [sortedDedup, mem_sortNat]

theorem sorted_sortedDedup (l : List Nat) : List.Sorted (· ≤ ·) (sortedDedup l) :=
  sorted_sortNat _

theorem nodup_sortedDedup (l : List Nat) : (sortedDedup l).Nodup :=
  nodup_sortNat l.nodup_dedup

theorem mem_keysInOrder {a : Nat} : ∀ {l : List Nat}, a ∈ keysInOrder l ↔ a ∈ l := by
  intro l
  induction l with
  | nil => simp [keysInOrder]
  | cons x xs ih =>
    by_cases hax : a = x
    · subst hax; simp [keysInOrder]
    · simp [keysInOrder, hax, ih]

theorem nodup_keysInOrder : ∀ (l : List Nat), (keysInOrder l).Nodup := by
  intro l
  induction l with
  | nil => simp [keysInOrder]
  | cons x xs ih =>
    refine List.Pairwise.cons ?_ (List.Nodup.filter _ ih)
    intro b hb hxb
    subst hxb
    exact absurd (List.of_mem_filter hb) (by simp)

/-- C1: `check_victory_conditions` returns the village win whenever no
werewolf lives, and otherwise the werewolf parity/majority win whenever
living werewolves ≥ living village-team players — each regardless of the
witch-stalemate state and the round limit, i.e. in this priority order
before any other termination condition. -/
theorem C1_victory_priority (s : GameState) :
    (s.get_alive_wolf_players.length = 0 →
      s.check_victory_conditions = villageWinResult) ∧
    (s.get_alive_wolf_players.length ≠ 0 →
      s.get_alive_villager_players.length ≤ s.get_alive_wolf_players.length →
      s.check_victory_conditions = parityWinResult) := by
  constructor
  · intro h0
    simp [GameState.check_victory_conditions, h0, villageWinResult]
  · intro hne hge
    simp [GameState.check_victory_conditions, hne, hge, parityWinResult,
      ge_iff_le]

/-- Witness for C1 at two concrete states. -/
theorem C1_victory_priority_witness :
    noWolfState.check_victory_conditions = villageWinResult ∧
    parityState.check_victory_conditions = parityWinResult :=
  ⟨(C1_victory_priority noWolfState).1 (by decide),
   (C1_victory_priority parityState).2 (by decide) (by decide)⟩

/-- C5 counterexample: in the exact situation the claim describes (dead
witch, both potions consumed, one living werewolf versus one living
village-team player) the evaluator does return a werewolf win, but with
the parity/majority reason, not the stalemate reason — check 2 fires first
because 1 ≥ 1. -/
theorem C5_counterexample :
    (∃ w ∈ witch1v1State.players,
        w.role = Role.witch ∧ w.is_alive = false ∧
        w.witch_heal_potion = false ∧ w.witch_poison_potion = false) ∧
    witch1v1State.get_alive_wolf_players.length = 1 ∧
    witch1v1State.get_alive_villager_players.length = 1 ∧
    witch1v1State.check_victory_conditions ≠ stalemateWinResult ∧
    witch1v1State.check_victory_conditions = parityWinResult := by
  refine ⟨⟨{ mkPlayer 3 "witch" Role.witch none with
      status := PlayerStatus.dead
      witch_heal_potion := false
      witch_poison_potion := false }, by decide, by decide⟩, by decide, by decide,
    by decide, by decide⟩

/-- C5 amended: in every state where the witch is dead, both potions are
consumed, and exactly one werewolf faces exactly one village-team player,
the evaluator returns the werewolf win with the parity/majority reason —
the stalemate branch is shadowed by check 2 (1 ≥ 1) and never reached. -/
theorem C5_stalemate_shadowed (s : GameState)
    (w : Player) (hw : w ∈ s.get_players_by_role Role.witch)
    (hdead : w.is_alive = false)
    (hheal : w.witch_heal_potion = false)
    (hpoison : w.witch_poison_potion = false)
    (hwolves : s.get_alive_wolf_players.length = 1)
    (hvill : s.get_alive_villager_players.length = 1) :
    s.check_victory_conditions = parityWinResult := by
  have h := (C1_victory_priority s).2 (by simp [hwolves]) (by simp [hwolves, hvill])
  exact h

/-- Witness for C5's amended statement at the concrete 1v1 state. -/
theorem C5_stalemate_shadowed_witness :
    witch1v1State.check_victory_conditions = parityWinResult :=
  C5_stalemate_shadowed witch1v1State
    { mkPlayer 3 "witch" Role.witch none with
        status := PlayerStatus.dead
        witch_heal_potion := false
        witch_poison_potion := false }
    (by decide) (by decide) (by decide) (by decide) (by decide) (by decide)

theorem mem_wolfBase {s : GameState} {d : Nat} :
    d ∈ wolfBase s ↔
      s.wolf_kill_target = some d ∧ d ≠ 0 ∧ s.witch_heal_used = false ∧
        s.aliveById d = true := by
  rcases hwt : s.wolf_kill_target with _ | t
  · simp [wolfBase, hwt]
  · by_cases hc : t ≠ 0 ∧ s.witch_heal_used = false ∧ s.aliveById t
    · simp only [wolfBase, hwt, if_pos hc, List.mem_singleton]
      constructor
      · rintro rfl
        exact ⟨rfl, hc.1, hc.2.1, hc.2.2⟩
      · rintro ⟨heq, -, -, -⟩
        exact (Option.some_injective _ heq).symm
    · simp only [wolfBase, hwt, if_neg hc, List.not_mem_nil, false_iff]
      rintro ⟨heq, h0, hheal, halive⟩
      obtain rfl : t = d := Option.some_injective _ heq
      exact hc ⟨h0, hheal, halive⟩

/-- C2: the night death list contains exactly the living players that are
either the (unhealed, truthy) wolf-kill target or a witch-poison target;
it is deduplicated and sorted ascending.  In particular a heal removes the
wolf-kill target (unless it was also poisoned), a poison adds any living
target even if the wolves did not pick it, and a heal of the exact
wolf-kill target by a live witch holding her heal potion does set the
`witch_heal_used` flag that the death resolution reads. -/
theorem C2_night_death_resolution (s : GameState) (events : List NightEvent) :
    (∀ d, d ∈ process_night_actions s events ↔
      s.aliveById d = true ∧
        ((s.wolf_kill_target = some d ∧ d ≠ 0 ∧ s.witch_heal_used = false) ∨
          d ∈ poisonTargets events)) ∧
    List.Sorted (· ≤ ·) (process_night_actions s events) ∧
    (process_night_actions s events).Nodup ∧
    (∀ t, s.witch_heal_used = true → s.wolf_kill_target = some t →
      t ∉ poisonTargets events → t ∉ process_night_actions s events) ∧
    (∀ t, t ∈ poisonTargets events → s.aliveById t = true →
      t ∈ process_night_actions s events) ∧
    (∀ w t, (s.get_alive_players_by_role Role.witch).head? = some w →
      s.wolf_kill_target = some t → w.witch_heal_potion = true →
      (witch_phase s (WitchAction.heal (some t))).1.witch_heal_used = true) := by
  have hmem : ∀ d, d ∈ process_night_actions s events ↔
      s.aliveById d = true ∧
        ((s.wolf_kill_target = some d ∧ d ≠ 0 ∧ s.witch_heal_used = false) ∨
          d ∈ poisonTargets events) := by
    intro d
    rw [process_night_actions, mem_sortedDedup, List.mem_append, List.mem_filter,
      mem_wolfBase]
    tauto
  refine ⟨hmem, sorted_sortedDedup _, nodup_sortedDedup _, ?_, ?_, ?_⟩
  · intro t hheal hwt hpoison hmem'
    rcases (hmem t).mp hmem' with ⟨-, ⟨-, -, hfalse⟩ | hp⟩
    · rw [hheal] at hfalse; exact Bool.noConfusion hfalse
    · exact hpoison hp
  · intro t hp halive
    exact (hmem t).mpr ⟨halive, Or.inr hp⟩
  · intro w t hw hwt hpot
    simp [witch_phase, hw, hwt, hpot, witch_phase.qheal]

/-- Witness for C2: with the wolf kill on player 1 healed and player 2
poisoned, player 2 dies and player 1 does not; the heal of the exact
wolf-kill target sets the flag. -/
theorem C2_night_death_resolution_witness :
    2 ∈ process_night_actions healedNightState healedNightEvents ∧
    1 ∉ process_night_actions healedNightState healedNightEvents ∧
    (witch_phase { healedNightState with witch_heal_used := false }
      (WitchAction.heal (some 1))).1.witch_heal_used = true := by
  have h := C2_night_death_resolution healedNightState healedNightEvents
  have h' := C2_night_death_resolution
    { healedNightState with witch_heal_used := false } healedNightEvents
  refine ⟨?_, ?_, ?_⟩
  · exact h.2.2.2.2.1 2 (by decide) (by decide)
  · exact h.2.2.2.1 1 (by decide) (by decide) (by decide)
  · exact h'.2.2.2.2.2 (mkPlayer 4 "witch" Role.witch none) 1 (by decide)
      (by decide) (by decide)

theorem le_foldr_max {a : Nat} : ∀ {l : List Nat}, a ∈ l → a ≤ l.foldr max 0 := by
  intro l h
  induction l with
  | nil => cases h
  | cons x xs ih =>
    simp only [List.foldr_cons]
    rcases List.mem_cons.mp h with rfl | h'
    · exact le_max_left _ _
    · exact le_trans (ih h') (le_max_right _ _)

theorem foldr_max_mem : ∀ {l : List Nat}, l ≠ [] → l.foldr max 0 ∈ l := by
  intro l h
  induction l with
  | nil => exact absurd rfl h
  | cons x xs ih =>
    cases xs with
    | nil => simp
    | cons y ys =>
      have hmem := ih (by simp)
      by_cases hx : List.foldr max 0 (y :: ys) ≤ x
      · show max x (List.foldr max 0 (y :: ys)) ∈ _
        rw [max_eq_left hx]
        exact List.mem_cons_self _ _
      · show max x (List.foldr max 0 (y :: ys)) ∈ _
        rw [max_eq_right (le_of_not_le hx)]
        exact List.mem_cons_of_mem _ hmem

theorem mem_mostVoted {votes : List (Nat × Nat)} {p : Nat} :
    p ∈ mostVoted votes ↔
      p ∈ voteTargets votes ∧ voteCountFor votes p = maxVotes votes := by
  simp [mostVoted, List.mem_filter]

theorem count_le_maxVotes {votes : List (Nat × Nat)} {t : Nat}
    (h : t ∈ voteTargets votes) : voteCountFor votes t ≤ maxVotes votes :=
  le_foldr_max (List.mem_map_of_mem _ h)

theorem nodup_mostVoted (votes : List (Nat × Nat)) : (mostVoted votes).Nodup :=
  List.Nodup.filter _ (nodup_keysInOrder _)

theorem eq_singleton_of_nodup {l : List Nat} {p : Nat} (hnd : l.Nodup)
    (hsub : ∀ x ∈ l, x = p) (hmem : p ∈ l) : l = [p] := by
  cases l with
  | nil => cases hmem
  | cons x xs =>
    have hx : x = p := hsub x (List.mem_cons_self _ _)
    have hxs : xs = [] := by
      cases hys : xs with
      | nil => rfl
      | cons y ys =>
        exfalso
        have hy : y = p := hsub y (by rw [hys]; simp)
        have hxnot := (List.pairwise_cons.mp hnd).1
        exact hxnot y (by rw [hys]; simp) (hx.trans hy.symm)
    rw [hx, hxs]

theorem eliminatedOf_spec (votes : List (Nat × Nat)) (p : Nat) :
    eliminatedOf votes = some p ↔
      p ∈ voteTargets votes ∧ ∀ q ∈ voteTargets votes, q ≠ p →
        voteCountFor votes q < voteCountFor votes p := by
  constructor
  · intro h
    rcases hmv : mostVoted votes with _ | ⟨t, _ | ⟨t2, ts⟩⟩ <;>
      rw [eliminatedOf, hmv] at h
    · cases h
    · have htp : t = p := Option.some_injective _ h
      have hpmem : p ∈ mostVoted votes := by
        rw [hmv]
        exact List.mem_singleton.mpr htp.symm
      have hp := mem_mostVoted.mp hpmem
      refine ⟨hp.1, fun q hq hqp => ?_⟩
      have hle := count_le_maxVotes hq
      rcases lt_or_eq_of_le hle with hlt | heq
      · rw [hp.2]; exact hlt
      · refine absurd ?_ hqp
        have hq' : q ∈ mostVoted votes := mem_mostVoted.mpr ⟨hq, heq⟩
        rw [hmv] at hq'
        exact (List.mem_singleton.mp hq').trans htp
    · cases h
  · rintro ⟨hp, hstrict⟩
    have hmaxp : maxVotes votes = voteCountFor votes p := by
      have hne : ((voteTargets votes).map (voteCountFor votes)) ≠ [] := by
        intro hemp
        rw [List.map_eq_nil_iff] at hemp
        rw [hemp] at hp
        cases hp
      rcases List.mem_map.mp (foldr_max_mem hne) with ⟨t0, ht0, hcount⟩
      by_cases ht0p : t0 = p
      · rw [maxVotes, ← hcount, ht0p]
      · exfalso
        have h1 : voteCountFor votes t0 < voteCountFor votes p := hstrict t0 ht0 ht0p
        have h2 : voteCountFor votes p ≤ maxVotes votes := count_le_maxVotes hp
        rw [maxVotes, ← hcount] at h2
        exact absurd (lt_of_le_of_lt h2 h1) (lt_irrefl _)
    have hsingle : mostVoted votes = [p] := by
      refine eq_singleton_of_nodup (nodup_mostVoted votes) ?_
        (mem_mostVoted.mpr ⟨hp, hmaxp.symm⟩)
      intro x hx
      rcases mem_mostVoted.mp hx with ⟨hxt, hxc⟩
      by_contra hxp
      have := hstrict x hxt hxp
      rw [hxc, hmaxp] at this
      exact lt_irrefl _ this
    rw [eliminatedOf, hsingle]

/-- C3: in every day voting phase with at least two living players, a
player is eliminated iff they hold strictly more votes than every other
voted candidate; any tie at the maximum eliminates no one.  Concretely,
vote counts `{2: 3, 5: 3, 7: 1}` eliminate no one and `{2: 4, 5: 2}`
eliminate player 2. -/
theorem C3_voting_strict_plurality (s : GameState) (voteOf : Nat → Nat)
    (h2 : 2 ≤ s.get_alive_players.length) :
    (∀ p, (voting_phase s voteOf).eliminated = some p ↔
      (p ∈ voteTargets (voting_phase s voteOf).votes ∧
        ∀ q ∈ voteTargets (voting_phase s voteOf).votes, q ≠ p →
          voteCountFor (voting_phase s voteOf).votes q <
            voteCountFor (voting_phase s voteOf).votes p)) ∧
    (voteCountFor (voting_phase voteState7 voteOf7).votes 2 = 3 ∧
      voteCountFor (voting_phase voteState7 voteOf7).votes 5 = 3 ∧
      voteCountFor (voting_phase voteState7 voteOf7).votes 7 = 1 ∧
      (voting_phase voteState7 voteOf7).eliminated = none) ∧
    (voteCountFor (voting_phase voteState6 voteOf6).votes 2 = 4 ∧
      voteCountFor (voting_phase voteState6 voteOf6).votes 5 = 2 ∧
      (voting_phase voteState6 voteOf6).eliminated = some 2) := by
  refine ⟨?_, by decide, by decide⟩
  have halive : ¬(s.get_alive_players.length ≤ 1) := by omega
  intro p
  simp only [voting_phase, if_neg halive]
  exact eliminatedOf_spec _ p

/-- Witness for C3 at the six-player example state. -/
theorem C3_voting_strict_plurality_witness :
    2 ≤ voteState6.get_alive_players.length ∧
    (voting_phase voteState6 voteOf6).eliminated = some 2 :=
  ⟨by decide,
    ((C3_voting_strict_plurality voteState6 voteOf6 (by decide)).1 2).mpr (by decide)⟩

theorem killFirst_shoot (l : List Player) (pid q : Nat) :
    ((killFirst l pid).find? (fun p => p.id = q)).map (fun p => p.hunter_can_shoot)
      = (l.find? (fun p => p.id = q)).map (fun p => p.hunter_can_shoot) := by
  induction l with
  | nil => rfl
  | cons p ps ih =>
    by_cases hp : p.id = pid
    · simp only [killFirst, if_pos hp]
      by_cases hq : p.id = q
      · simp [List.find?_cons, Player.kill, hq]
      · simp [List.find?_cons, Player.kill, hq]
    · simp only [killFirst, if_neg hp]
      by_cases hq : p.id = q
      · simp [List.find?_cons, hq]
      · simp [List.find?_cons, hq, ih]

theorem kill_player_shoot (s : GameState) (pid q : Nat) :
    (((s.kill_player pid).2).get_player_by_id q).map (fun p => p.hunter_can_shoot)
      = (s.get_player_by_id q).map (fun p => p.hunter_can_shoot) := by
  rcases hf : s.get_player_by_id pid with _ | p
  · simp [GameState.kill_player, hf]
  · by_cases halive : p.is_alive
    · simp only [GameState.kill_player, hf, if_pos halive]
      exact killFirst_shoot s.players pid q
    · simp [GameState.kill_player, hf, halive]

theorem apply_day_deaths_shoot (deaths : List Nat) :
    ∀ (s : GameState) (q : Nat),
      ((apply_day_deaths s deaths).get_player_by_id q).map (fun p => p.hunter_can_shoot)
        = (s.get_player_by_id q).map (fun p => p.hunter_can_shoot) := by
  induction deaths with
  | nil => intro s q; rfl
  | cons d ds ih =>
    intro s q
    have hstep :
        (({ (s.kill_player d).2 with
            deaths_this_day := ((s.kill_player d).2).deaths_this_day ++ [d] } :
          GameState).get_player_by_id q).map (fun p => p.hunter_can_shoot)
          = (s.get_player_by_id q).map (fun p => p.hunter_can_shoot) :=
      kill_player_shoot s d q
    calc ((apply_day_deaths s (d :: ds)).get_player_by_id q).map
            (fun p => p.hunter_can_shoot)
        = (((apply_day_deaths
            { (s.kill_player d).2 with
              deaths_this_day := ((s.kill_player d).2).deaths_this_day ++ [d] } ds)).get_player_by_id q).map
            (fun p => p.hunter_can_shoot) := rfl
      _ = _ := (ih _ q).trans hstep

/-- C4 counterexample: player 1 is a hunter with `hunter_can_shoot = True`
who is eliminated by the vote and shoots living player 2 — the day
resolution does produce the two deaths, but after they are applied the
hunter's `can_shoot` flag is still `True`: the code never sets
`hunter_can_shoot` to `False`, so the flag is not consumed, contradicting
the claim. -/
theorem C4_counterexample :
    (hunterState.get_player_by_id 1).map (fun p => p.role) = some Role.hunter ∧
    (hunterState.get_player_by_id 1).map (fun p => p.hunter_can_shoot) = some true ∧
    process_day_deaths (some 1) (handle_hunter_shot hunterState (some 1) 2) = [1, 2] ∧
    ¬ (((apply_day_deaths hunterState
          (process_day_deaths (some 1)
            (handle_hunter_shot hunterState (some 1) 2))).get_player_by_id 1).map
        (fun p => p.hunter_can_shoot) = some false) := by
  decide

/-- C4 amended: when the vote eliminates a hunter whose `can_shoot` flag is
`True` and the hunter names a living target other than themselves, the day
resolution yields exactly the two deaths (hunter, then target); the
`hunter_can_shoot` flag of every player — the hunter included — is left
unchanged by the whole day-death processing (the code never consumes it),
so the hunter's flag is still `True` afterwards. -/
theorem C4_hunter_chain (s : GameState) (e t : Nat) (ep : Player)
    (he : s.get_player_by_id e = some ep)
    (he0 : e ≠ 0)
    (hrole : ep.role = Role.hunter)
    (hshoot : ep.hunter_can_shoot = true)
    (ht : t ∈ s.get_alive_players.map (fun p => p.id))
    (hte : t ≠ e) (ht0 : t ≠ 0) :
    process_day_deaths (some e) (handle_hunter_shot s (some e) t) = [e, t] ∧
    (∀ q, ((apply_day_deaths s
        (process_day_deaths (some e) (handle_hunter_shot s (some e) t))).get_player_by_id q).map
          (fun p => p.hunter_can_shoot)
        = (s.get_player_by_id q).map (fun p => p.hunter_can_shoot)) ∧
    ((apply_day_deaths s
        (process_day_deaths (some e) (handle_hunter_shot s (some e) t))).get_player_by_id e).map
          (fun p => p.hunter_can_shoot) = some true := by
  have hne : s.get_alive_players.map (fun p => p.id) ≠ [] := List.ne_nil_of_mem ht
  have hhs : handle_hunter_shot s (some e) t =
      some { hunter := e, target := some t, successful := true } := by
    simp [handle_hunter_shot, he0, he, hrole, hshoot, hne, ht]
  have hdeaths : process_day_deaths (some e) (handle_hunter_shot s (some e) t) = [e, t] := by
    rw [hhs]
    simp [process_day_deaths, he0, ht0, hte]
  refine ⟨hdeaths, fun q => apply_day_deaths_shoot _ s q, ?_⟩
  rw [apply_day_deaths_shoot _ s e, he]
  simp [hshoot]

/-- Witness for C4's amended statement at the concrete hunter state. -/
theorem C4_hunter_chain_witness :
    process_day_deaths (some 1) (handle_hunter_shot hunterState (some 1) 2) = [1, 2] ∧
    ((apply_day_deaths hunterState
        (process_day_deaths (some 1)
          (handle_hunter_shot hunterState (some 1) 2))).get_player_by_id 1).map
      (fun p => p.hunter_can_shoot) = some true := by
  have h := C4_hunter_chain hunterState 1 2 (mkPlayer 1 "H" Role.hunter none)
    (by decide) (by decide) (by decide) (by decide) (by decide) (by decide) (by decide)
  exact ⟨h.1, h.2.2⟩

/-- C6 counterexample: with no valid wolf proposal the fallback is
`random.choice(non_wolf_players)`; drawing index 1 resolves the kill onto
player 2 even though the first eligible non-werewolf living player by id is
player 1 — the documented deterministic first-by-id default is not what the
code does. -/
theorem C6_counterexample :
    wolf_votes wolfFallbackState noReplies = [] ∧
    ((wolfFallbackState.get_alive_players.filter
        (fun p => p.role ≠ Role.werewolf)).map (fun p => p.id)).head? = some 1 ∧
    werewolf_phase wolfFallbackState noReplies 1 =
      some (NightEvent.wolf_kill 2 [3]) ∧
    (2 : Nat) ≠ 1 := by
  decide

/-- C6 amended: when no living werewolf submits a valid kill proposal, the
phase still completes with a kill event whose target is one of the eligible
non-werewolf living players — the target is picked by `random.choice`
(modelled by an arbitrary draw index `k`), so any eligible player may be
chosen, not deterministically the first by id. -/
theorem C6_wolf_fallback (s : GameState) (replies : Nat → Option ActionReply) (k : Nat)
    (hw : s.get_alive_wolf_players ≠ [])
    (hv : wolf_votes s replies = [])
    (hn : (s.get_alive_players.filter (fun p => p.role ≠ Role.werewolf)).map
      (fun p => p.id) ≠ []) :
    ∃ t ∈ (s.get_alive_players.filter (fun p => p.role ≠ Role.werewolf)).map
        (fun p => p.id),
      werewolf_phase s replies k =
        some (NightEvent.wolf_kill t (s.get_alive_wolf_players.map (fun p => p.id))) := by
  set nw := (s.get_alive_players.filter (fun p => p.role ≠ Role.werewolf)).map
    (fun p => p.id) with hnw
  have hlen : 0 < nw.length := List.length_pos.mpr hn
  have hlt : k % nw.length < nw.length := Nat.mod_lt k hlen
  refine ⟨nw.getD (k % nw.length) 0, ?_, ?_⟩
  · rw [List.getD_eq_getElem _ _ hlt]
    exact List.getElem_mem hlt
  · simp only [werewolf_phase, hw, hv, hn]
    simp [← hnw, hn]
    simp [hnw, List.getElem?_map, List.length_map]

/-- Witness for C6's amended statement at the concrete fallback state. -/
theorem C6_wolf_fallback_witness :
    ∃ t ∈ (wolfFallbackState.get_alive_players.filter
        (fun p => p.role ≠ Role.werewolf)).map (fun p => p.id),
      werewolf_phase wolfFallbackState noReplies 0 =
        some (NightEvent.wolf_kill t
          (wolfFallbackState.get_alive_wolf_players.map (fun p => p.id))) :=
  C6_wolf_fallback wolfFallbackState noReplies 0 (by decide) (by decide) (by decide)

/-- C7: for a non-empty death set whose ids all belong to players of the
state, every dying player gets a last-words record iff the round is 1 or
exactly one player died this night; two or more night deaths in a round
greater than 1 yield no last words for anyone. -/
theorem C7_last_words (s : GameState) (speakOf : Nat → String) (deaths : List Nat)
    (hne : deaths ≠ [])
    (hex : ∀ d ∈ deaths, (s.get_player_by_id d).isSome) :
    ((s.current_round = 1 ∨ deaths.length = 1) →
      (handle_last_words s speakOf deaths).map (fun lw => lw.player) = deaths) ∧
    (s.current_round ≠ 1 → 2 ≤ deaths.length →
      handle_last_words s speakOf deaths = []) := by
  have hcover : ∀ (l : List Nat), (∀ d ∈ l, (s.get_player_by_id d).isSome) →
      ((l.filterMap fun pid => (s.get_player_by_id pid).map (fun p =>
        ({ player := pid, name := p.name, speech := speakOf pid } : LastWord))).map
          (fun lw => lw.player)) = l := by
    intro l hl
    induction l with
    | nil => rfl
    | cons d ds ih =>
      rcases Option.isSome_iff_exists.mp (hl d (List.mem_cons_self _ _)) with ⟨p, hp⟩
      simp [List.filterMap_cons, hp,
        ih (fun x hx => hl x (List.mem_cons_of_mem _ hx))]
  constructor
  · intro hcond
    simp only [handle_last_words, if_neg hne, if_pos hcond]
    exact hcover deaths hex
  · intro hr hlen
    have hnot : ¬(s.current_round = 1 ∨ deaths.length = 1) := by
      rintro (h1 | h1)
      · exact hr h1
      · omega
    simp only [handle_last_words, if_neg hne, if_neg hnot]

/-- Witness for C7 at the concrete hunter state (round 2): two deaths give
no last words, a single death gets one. -/
theorem C7_last_words_witness :
    handle_last_words hunterState sampleSpeak [1, 2] = [] ∧
    (handle_last_words hunterState sampleSpeak [2]).map (fun lw => lw.player) = [2] :=
  ⟨(C7_last_words hunterState sampleSpeak [1, 2] (by decide) (by decide)).2
      (by decide) (by decide),
   (C7_last_words hunterState sampleSpeak [2] (by decide) (by decide)).1
      (Or.inr (by decide))⟩

theorem fiveCount_le (l : List String) :
    l.count "werewolf" + l.count "seer" + l.count "witch" + l.count "hunter" +
      l.count "villager" ≤ l.length ∧
    (l.count "werewolf" + l.count "seer" + l.count "witch" + l.count "hunter" +
      l.count "villager" = l.length → ∀ x ∈ l, (roleOfString x).isSome) := by
  induction l with
  | nil => exact ⟨le_refl 0, by intro _ x hx; cases hx⟩
  | cons a l ih =>
    rcases ih with ⟨ihle, iheq⟩
    by_cases h1 : a = "werewolf"
    · subst h1
      refine ⟨by simp [List.count_cons]; omega, ?_⟩
      intro hsum x hx
      rcases List.mem_cons.mp hx with rfl | hx'
      · simp [roleOfString]
      · refine iheq ?_ x hx'
        simp [List.count_cons] at hsum
        omega
    · by_cases h2 : a = "seer"
      · subst h2
        refine ⟨by simp [List.count_cons]; omega, ?_⟩
        intro hsum x hx
        rcases List.mem_cons.mp hx with rfl | hx'
        · simp [roleOfString]
        · refine iheq ?_ x hx'
          simp [List.count_cons] at hsum
          omega
      · by_cases h3 : a = "witch"
        · subst h3
          refine ⟨by simp [List.count_cons]; omega, ?_⟩
          intro hsum x hx
          rcases List.mem_cons.mp hx with rfl | hx'
          · simp [roleOfString]
          · refine iheq ?_ x hx'
            simp [List.count_cons] at hsum
            omega
        · by_cases h4 : a = "hunter"
          · subst h4
            refine ⟨by simp [List.count_cons]; omega, ?_⟩
            intro hsum x hx
            rcases List.mem_cons.mp hx with rfl | hx'
            · simp [roleOfString]
            · refine iheq ?_ x hx'
              simp [List.count_cons] at hsum
              omega
          · by_cases h5 : a = "villager"
            · subst h5
              refine ⟨by simp [List.count_cons]; omega, ?_⟩
              intro hsum x hx
              rcases List.mem_cons.mp hx with rfl | hx'
              · simp [roleOfString]
              · refine iheq ?_ x hx'
                simp [List.count_cons] at hsum
                omega
            · refine ⟨?_, ?_⟩
              · simp [List.count_cons, h1, h2, h3, h4, h5]
                omega
              · intro hsum
                exfalso
                simp [List.count_cons, h1, h2, h3, h4, h5] at hsum
                omega

theorem filterMap_length_of_all {α β : Type} (f : α → Option β) :
    ∀ (l : List α), (∀ x ∈ l, (f x).isSome) → (l.filterMap f).length = l.length := by
  intro l h
  induction l with
  | nil => rfl
  | cons x xs ih =>
    rcases Option.isSome_iff_exists.mp (h x (List.mem_cons_self _ _)) with ⟨b, hb⟩
    simp [List.filterMap_cons, hb, ih (fun y hy => h y (List.mem_cons_of_mem _ hy))]

theorem role_counts_ok_all_valid {cfgs : List PlayerConfig}
    (hl : cfgs.length = 10) (hr : role_counts_ok cfgs = true) :
    ∀ c ∈ cfgs, (roleOfString c.role).isSome := by
  have hr' := hr
  simp only [role_counts_ok, Bool.and_eq_true, decide_eq_true_eq] at hr'
  obtain ⟨⟨⟨⟨hw, hs⟩, hwi⟩, hh⟩, hv⟩ := hr'
  have hlen : (cfgs.map (fun c => c.role)).length = 10 := by simp [hl]
  have hall := (fiveCount_le (cfgs.map (fun c => c.role))).2
    (by rw [hw, hs, hwi, hh, hv, hlen])
  intro c hc
  exact hall c.role (List.mem_map_of_mem _ hc)

theorem mkPlayers_length_of_valid {cfgs : List PlayerConfig}
    (hall : ∀ c ∈ cfgs, (roleOfString c.role).isSome) :
    (mkPlayers cfgs).length = cfgs.length := by
  rw [mkPlayers, filterMap_length_of_all _ cfgs.enum ?_, List.enum_length]
  intro x hx
  have hx2 : x.2 ∈ cfgs := List.getElem?_mem (List.mem_enum_iff_getElem?.mp hx)
  have := hall x.2 hx2
  rcases Option.isSome_iff_exists.mp this with ⟨r, hrx⟩
  simp [hrx]

/-- C8: `setup_game` succeeds iff the roster has exactly ten entries with
the exact role counts 3 werewolf / 1 seer / 1 witch / 1 hunter /
4 villager; any violation fails before a single player is added (the state
is returned untouched, so starting from the fresh state it stays without
players), and success appends exactly ten players. -/
theorem C8_setup_validation (s : GameState) (cfgs : List PlayerConfig) :
    ((setup_game s cfgs).1 = true ↔ cfgs.length = 10 ∧ role_counts_ok cfgs = true) ∧
    ((setup_game s cfgs).1 = false → (setup_game s cfgs).2 = s) ∧
    ((setup_game GameState.init cfgs).1 = false →
      (setup_game GameState.init cfgs).2.players = []) ∧
    ((setup_game s cfgs).1 = true →
      (setup_game s cfgs).2.players = s.players ++ mkPlayers cfgs ∧
        (mkPlayers cfgs).length = 10) := by
  by_cases hl : cfgs.length = 10
  · by_cases hr : role_counts_ok cfgs = true
    · have hmk : (mkPlayers cfgs).length = 10 :=
        (mkPlayers_length_of_valid (role_counts_ok_all_valid hl hr)).trans hl
      refine ⟨?_, ?_, ?_, ?_⟩ <;>
        simp [setup_game, hl, hr, hmk]
    · refine ⟨?_, ?_, ?_, ?_⟩ <;>
        simp [setup_game, hl, hr, GameState.init]
  · refine ⟨?_, ?_, ?_, ?_⟩ <;>
      simp [setup_game, hl, GameState.init]

/-- Witness for C8: the valid ten-entry roster passes setup, the
all-villager roster fails leaving the fresh state without players. -/
theorem C8_setup_validation_witness :
    (setup_game GameState.init goodConfigs).1 = true ∧
    (setup_game GameState.init badConfigs).1 = false ∧
    (setup_game GameState.init badConfigs).2.players = [] :=
  ⟨(C8_setup_validation GameState.init goodConfigs).1.mpr ⟨by decide, by decide⟩,
   by decide,
   (C8_setup_validation GameState.init badConfigs).2.2.1 (by decide)⟩

theorem mem_killFirst {l : List Player} {pid : Nat} {p' : Player}
    (h : p' ∈ killFirst l pid) : p' ∈ l ∨ ∃ p ∈ l, p' = p.kill := by
  induction l with
  | nil => cases h
  | cons q qs ih =>
    by_cases hq : q.id = pid
    · rw [killFirst, if_pos hq] at h
      rcases List.mem_cons.mp h with rfl | h'
      · exact Or.inr ⟨q, List.mem_cons_self _ _, rfl⟩
      · exact Or.inl (List.mem_cons_of_mem _ h')
    · rw [killFirst, if_neg hq] at h
      rcases List.mem_cons.mp h with rfl | h'
      · exact Or.inl (List.mem_cons_self _ _)
      · rcases ih h' with h'' | ⟨p, hp, hpk⟩
        · exact Or.inl (List.mem_cons_of_mem _ h'')
        · exact Or.inr ⟨p, List.mem_cons_of_mem _ hp, hpk⟩

theorem mem_updatePlayer {l : List Player} {pid : Nat} {f : Player → Player} {p' : Player}
    (h : p' ∈ updatePlayer l pid f) : p' ∈ l ∨ ∃ p ∈ l, p' = f p := by
  induction l with
  | nil => cases h
  | cons q qs ih =>
    by_cases hq : q.id = pid
    · rw [updatePlayer, if_pos hq] at h
      rcases List.mem_cons.mp h with rfl | h'
      · exact Or.inr ⟨q, List.mem_cons_self _ _, rfl⟩
      · exact Or.inl (List.mem_cons_of_mem _ h')
    · rw [updatePlayer, if_neg hq] at h
      rcases List.mem_cons.mp h with rfl | h'
      · exact Or.inl (List.mem_cons_self _ _)
      · rcases ih h' with h'' | ⟨p, hp, hpk⟩
        · exact Or.inl (List.mem_cons_of_mem _ h'')
        · exact Or.inr ⟨p, List.mem_cons_of_mem _ hp, hpk⟩

/-- C9: the team of a player constructed the way `setup_game` constructs
them (no explicit `team`) is Werewolf iff the role is Werewolf; every
player produced by the setup loop satisfies this; and the state mutators
(`kill`, `kill_player`, the witch's potion consumption) never change a
player's team or role, so the equivalence is preserved in every reachable
state. -/
theorem C9_team_is_derived_from_role :
    (∀ (id : Nat) (name : String) (role : Role),
      ((mkPlayer id name role none).team = Team.werewolf ↔ role = Role.werewolf)) ∧
    (∀ p : Player, (Player.kill p).team = p.team ∧ (Player.kill p).role = p.role) ∧
    (∀ (cfgs : List PlayerConfig) (p : Player), p ∈ mkPlayers cfgs →
      (p.team = Team.werewolf ↔ p.role = Role.werewolf)) ∧
    (∀ (s : GameState) (pid : Nat) (p' : Player),
      p' ∈ ((s.kill_player pid).2).players →
      ∃ p ∈ s.players, p'.team = p.team ∧ p'.role = p.role) ∧
    (∀ (s : GameState) (a : WitchAction) (p' : Player),
      p' ∈ ((witch_phase s a).1).players →
      ∃ p ∈ s.players, p'.team = p.team ∧ p'.role = p.role) := by
  have hmk : ∀ (id : Nat) (name : String) (role : Role),
      ((mkPlayer id name role none).team = Team.werewolf ↔ role = Role.werewolf) := by
    intro id name role
    cases role <;> simp [mkPlayer, derivedTeam]
  refine ⟨hmk, ?_, ?_, ?_, ?_⟩
  · intro p
    exact ⟨rfl, rfl⟩
  · intro cfgs p hp
    rcases List.mem_filterMap.mp hp with ⟨ic, -, hic⟩
    rcases Option.map_eq_some'.mp hic with ⟨r, -, hmkr⟩
    rw [← hmkr]
    exact hmk _ _ r
  · intro s pid p' hp'
    rcases hf : s.get_player_by_id pid with _ | p0
    · refine ⟨p', ?_, rfl, rfl⟩
      simpa [GameState.kill_player, hf] using hp'
    · by_cases halive : p0.is_alive
      · rw [GameState.kill_player, hf] at hp'
        simp only [if_pos halive] at hp'
        rcases mem_killFirst hp' with h | ⟨p, hp, rfl⟩
        · exact ⟨p', h, rfl, rfl⟩
        · exact ⟨p, hp, rfl, rfl⟩
      · refine ⟨p', ?_, rfl, rfl⟩
        simpa [GameState.kill_player, hf, halive] using hp'
  · intro s a p' hp'
    rcases hw : (s.get_alive_players_by_role Role.witch).head? with _ | w
    · refine ⟨p', ?_, rfl, rfl⟩
      simpa [witch_phase, hw] using hp'
    · cases a with
      | heal t? =>
        rcases t? with _ | t
        · refine ⟨p', ?_, rfl, rfl⟩
          simpa [witch_phase, hw] using hp'
        · rcases hwt : s.wolf_kill_target with _ | wt
          · refine ⟨p', ?_, rfl, rfl⟩
            simpa [witch_phase, hw, hwt] using hp'
          · by_cases hc : t = wt ∧ w.witch_heal_potion
            · rw [witch_phase, hw, hwt] at hp'
              simp only [if_pos hc, witch_phase.qheal] at hp'
              rcases mem_updatePlayer hp' with h | ⟨p, hp, rfl⟩
              · exact ⟨p', h, rfl, rfl⟩
              · exact ⟨p, hp, rfl, rfl⟩
            · refine ⟨p', ?_, rfl, rfl⟩
              rw [witch_phase, hw, hwt] at hp'
              simpa [if_neg hc] using hp'
      | poison t? =>
        rcases t? with _ | t
        · refine ⟨p', ?_, rfl, rfl⟩
          simpa [witch_phase, hw] using hp'
        · rcases htp : s.get_player_by_id t with _ | tp
          · refine ⟨p', ?_, rfl, rfl⟩
            simpa [witch_phase, hw, htp] using hp'
          · by_cases hc : tp.is_alive ∧ w.witch_poison_potion
            · simp only [witch_phase, hw, htp, if_pos hc, witch_phase.qpoison] at hp'
              rcases mem_updatePlayer hp' with h | ⟨p, hp, rfl⟩
              · exact ⟨p', h, rfl, rfl⟩
              · exact ⟨p, hp, rfl, rfl⟩
            · refine ⟨p', ?_, rfl, rfl⟩
              simp only [witch_phase, hw, htp, if_neg hc] at hp'
              exact hp'
      | no_action =>
        refine ⟨p', ?_, rfl, rfl⟩
        simpa [witch_phase, hw] using hp'
      | invalid =>
        refine ⟨p', ?_, rfl, rfl⟩
        simpa [witch_phase, hw] using hp'

/-- Witness for C9 on two concretely constructed players. -/
theorem C9_team_is_derived_from_role_witness :
    (mkPlayer 1 "A" Role.werewolf none).team = Team.werewolf ∧
    ¬ (mkPlayer 2 "B" Role.seer none).team = Team.werewolf := by
  have h := C9_team_is_derived_from_role
  refine ⟨(h.1 1 "A" Role.werewolf).mpr rfl, fun hc => ?_⟩
  exact absurd ((h.1 2 "B" Role.seer).mp hc) (by decide)

theorem find?_id_unique {pid : Nat} :
    ∀ {l : List Player} {p q : Player},
      (l.map (fun r => r.id)).Nodup →
      l.find? (fun r => r.id = pid) = some p → q ∈ l → q.id = pid → q = p := by
  intro l
  induction l with
  | nil => intro p q _ hfind; cases hfind
  | cons r rs ih =>
    intro p q hnd hfind hq hqid
    have hnd' : (∀ x ∈ rs, ¬ x.id = r.id) ∧ (rs.map (fun r => r.id)).Nodup := by
      simpa using hnd
    by_cases hr : r.id = pid
    · rw [List.find?_cons_of_pos _ (by simpa using hr)] at hfind
      rcases List.mem_cons.mp hq with rfl | hq'
      · exact Option.some_injective _ hfind
      · exact absurd (hqid.trans hr.symm) (hnd'.1 q hq')
    · rw [List.find?_cons_of_neg _ (by simpa using hr)] at hfind
      rcases List.mem_cons.mp hq with rfl | hq'
      · exact absurd hqid hr
      · exact ih hnd'.2 hfind hq' hqid

theorem map_kill_of_no_live_match {pid : Nat} :
    ∀ {l : List Player},
      (∀ q ∈ l, q.id = pid → q.is_alive = false) →
      l.map (fun q => if q.id = pid ∧ q.is_alive then q.kill else q) = l := by
  intro l h
  induction l with
  | nil => rfl
  | cons r rs ih =>
    have hr : ¬(r.id = pid ∧ r.is_alive = true) := by
      rintro ⟨h1, h2⟩
      rw [h r (List.mem_cons_self _ _) h1] at h2
      cases h2
    simp only [List.map_cons]
    rw [if_neg hr, ih (fun q hq => h q (List.mem_cons_of_mem _ hq))]

theorem killFirst_eq_map {pid : Nat} :
    ∀ {l : List Player} {p : Player},
      (l.map (fun r => r.id)).Nodup →
      l.find? (fun r => r.id = pid) = some p → p.is_alive = true →
      killFirst l pid =
        l.map (fun q => if q.id = pid ∧ q.is_alive then q.kill else q) := by
  intro l
  induction l with
  | nil => intro p _ hfind; cases hfind
  | cons r rs ih =>
    intro p hnd hfind halive
    have hnd' : (∀ x ∈ rs, ¬ x.id = r.id) ∧ (rs.map (fun r => r.id)).Nodup := by
      simpa using hnd
    by_cases hr : r.id = pid
    · rw [List.find?_cons_of_pos _ (by simpa using hr)] at hfind
      have hrp : p = r := (Option.some_injective _ hfind).symm
      subst hrp
      rw [killFirst, if_pos hr]
      have htail : rs.map (fun q => if q.id = pid ∧ q.is_alive then q.kill else q) = rs := by
        refine map_kill_of_no_live_match ?_
        intro q hq hqid
        exact absurd (hqid.trans hr.symm) (hnd'.1 q hq)
      simp only [List.map_cons]
      rw [if_pos ⟨hr, halive⟩, htail]
    · rw [List.find?_cons_of_neg _ (by simpa using hr)] at hfind
      have hrneg : ¬(r.id = pid ∧ r.is_alive = true) := by
        rintro ⟨h1, -⟩
        exact hr h1
      rw [killFirst, if_neg hr]
      simp only [List.map_cons]
      rw [if_neg hrneg, ih hnd'.2 hfind halive]

/-- C10: under the game invariant that player ids are unique,
`kill_player` returns `True` iff a player with the id exists and is
currently alive; the resulting player list is the original with exactly the
living id-matching player switched to `DEAD` and everyone else untouched,
and a `False` return (unknown id or already-dead target) leaves the whole
state unchanged. -/
theorem C10_kill_player_semantics (s : GameState) (pid : Nat)
    (hnd : (s.players.map (fun p => p.id)).Nodup) :
    ((s.kill_player pid).1 = true ↔
      ∃ p ∈ s.players, p.id = pid ∧ p.is_alive = true) ∧
    ((s.kill_player pid).2).players =
      s.players.map (fun q => if q.id = pid ∧ q.is_alive then q.kill else q) ∧
    ((s.kill_player pid).1 = false → (s.kill_player pid).2 = s) := by
  rcases hf : s.get_player_by_id pid with _ | p0
  · have hnone := List.find?_eq_none.mp hf
    refine ⟨?_, ?_, ?_⟩
    · simp only [GameState.kill_player, hf]
      constructor
      · intro h; cases h
      · rintro ⟨p, hp, hpid, -⟩
        exact absurd (by simpa using hpid) (hnone p hp)
    · simp only [GameState.kill_player, hf]
      refine (map_kill_of_no_live_match ?_).symm
      intro q hq hqid
      exact absurd (by simpa using hqid) (hnone q hq)
    · intro _
      simp [GameState.kill_player, hf]
  · have hp0 := List.find?_some hf
    have hp0mem := List.mem_of_find?_eq_some hf
    have hp0id : p0.id = pid := by simpa using hp0
    by_cases halive : p0.is_alive
    · refine ⟨?_, ?_, ?_⟩
      · simp only [GameState.kill_player, hf, if_pos halive]
        exact ⟨fun _ => ⟨p0, hp0mem, hp0id, halive⟩, fun _ => trivial⟩
      · simp only [GameState.kill_player, hf, if_pos halive]
        exact killFirst_eq_map hnd hf halive
      · intro hfalse
        simp [GameState.kill_player, hf, if_pos halive] at hfalse
    · have hdead : p0.is_alive = false := by
        cases h' : p0.is_alive
        · rfl
        · exact absurd h' halive
      refine ⟨?_, ?_, ?_⟩
      · simp only [GameState.kill_player, hf, if_neg halive]
        constructor
        · intro h; cases h
        · rintro ⟨p, hp, hpid, hpalive⟩
          have : p = p0 := find?_id_unique hnd hf hp hpid
          rw [this, hdead] at hpalive
          cases hpalive
      · simp only [GameState.kill_player, hf, if_neg halive]
        refine (map_kill_of_no_live_match ?_).symm
        intro q hq hqid
        have : q = p0 := find?_id_unique hnd hf hq hqid
        rw [this, hdead]
      · intro _
        simp [GameState.kill_player, hf, halive]

/-- Witness for C10 at the concrete hunter state: killing living player 2
succeeds; id 99 is unknown and leaves the state unchanged. -/
theorem C10_kill_player_semantics_witness :
    (hunterState.kill_player 2).1 = true ∧
    (hunterState.kill_player 99).2 = hunterState :=
  ⟨(C10_kill_player_semantics hunterState 2 (by decide)).1.mpr
      ⟨mkPlayer 2 "V" Role.villager none, by decide⟩,
   (C10_kill_player_semantics hunterState 99 (by decide)).2.2 (by decide)⟩

end WereWolf

